import Mathlib

/-!
Formal model of the `job_find` repository (single source file `src/app.py`, a
Streamlit job-search app).  The pure computational core is translated into
Lean definitions:

* `ai_estimate_salary`  — salary-range heuristic (app.py lines 41-57);
* `parse_resume`        — résumé text analysis (lines 60-74);
* `fetch_remotive_raw`  — job fetch with swallowed failures (lines 77-85);
* `semantic_match_jobs` — TF-IDF ranking of postings (lines 88-110);
* `filter_results`      — the score/keyword filter loop of the UI handler
                          (lines 165-169);
* `parse_manual_skills`, `effective_skills`, `find_jobs_flow` — the top-level
  skill-input handling (lines 136-148, 158-161).

Modelling conventions:

* Python dictionaries coming from the job API are modelled by `Job`, whose
  fields are `Option String`: `none` models an absent key, so `job.get(k, d)`
  becomes `Option.getD` and `job[k]` becomes a `match` that produces
  `MatchErr.keyError` on `none` (Python raises `KeyError`).
* scikit-learn is a third-party library; its relevant behaviour is modelled
  from its documented semantics:
  - the default `TfidfVectorizer` analyzer lowercases, takes maximal runs of
    word characters of length ≥ 2 (the default token pattern
    `\b\w\w+\b`) and removes the built-in English stop-word list
    (`tokenize` below; ASCII approximation of the Unicode word class);
  - `fit_transform` raises `ValueError` ("empty vocabulary") iff no document
    contributes any token (`MatchErr.emptyVocabulary`);
  - `cosine_similarity(X, Y)` validates its inputs and raises `ValueError`
    ("Found array with 0 sample(s)") when `Y` has no rows, which happens in
    `semantic_match_jobs` exactly when the postings list is empty
    (`MatchErr.zeroSamples`);
  - the numeric similarity values are floating-point; they are abstracted by
    an oracle parameter `sim : List String → List ℚ` wherever only the
    structure of the result matters, and modelled exactly for
    `ai_estimate_salary`: there only `argmax` of the similarities is used,
    all cosine similarities are nonnegative, and squaring is monotone on
    nonnegatives, so `argmax` over cosines equals `argmax` over squared
    cosines, which are rational (`cosSq`); the TF-IDF weight of a token is
    kept abstract as `idf : String → ℚ` (its true value,
    `tf · (ln ((1+n)/(1+df)) + 1)`, is positive).
* Python `int()` truncates toward zero: `pyInt`.  The code computes
  `int(salary * 0.85)` / `int(salary * 1.15)` in binary64; the model computes
  the exact rational products.  For every entry of `SALARY_DATA` the two
  disagree by at most one unit and never across a multiple of 1000, so the
  displayed strings — low and high floor-divided by 1000 with a "k" suffix —
  coincide.
* Python `sorted(..., key=score, reverse=True)` is a stable descending sort;
  it is modelled by `List.mergeSort` with the comparator
  `fun a b => b.score ≤ a.score`, which is stable in the same sense.
-/

namespace JobFind

/-! ### Python string primitives

Every string operation below recurses structurally on the character list of
the string, so that all definitions evaluate by kernel reduction. -/

/-- The characters of a string. -/
def chars (s : String) : List Char := s.data

/-- Python `str.lower()` (ASCII case mapping). -/
def pyLower (s : String) : String := String.mk ((chars s).map Char.toLower)

/-- Python `str.strip()`: whitespace removed from both ends. -/
def pyStrip (s : String) : String :=
  String.mk
    ((((chars s).dropWhile (fun c => c.isWhitespace)).reverse.dropWhile
        (fun c => c.isWhitespace)).reverse)

/-- Python `s.split(",")` on the character list: `[[]]` for the empty
string, exactly as `"".split(",") == [""]`. -/
def splitOnComma : List Char → List (List Char)
  | [] => [[]]
  | c :: cs =>
    if c = ',' then [] :: splitOnComma cs
    else
      match splitOnComma cs with
      | [] => [[c]]
      | h :: t => (c :: h) :: t

/-- Python `" ".join(strs)`. -/
def joinSpace : List String → String
  | [] => ""
  | [s] => s
  | s :: rest => s ++ " " ++ joinSpace rest

/-- Boolean test that the first list is an initial segment of the second. -/
def leadsWith : List Char → List Char → Bool
  | [], _ => true
  | _ :: _, [] => false
  | a :: as, b :: bs => a == b && leadsWith as bs

/-- Boolean test that `needle` occurs contiguously inside `hay`; this is
Python's `needle in hay` for strings. -/
def occursIn (needle : List Char) : List Char → Bool
  | [] => leadsWith needle []
  | c :: cs => leadsWith needle (c :: cs) || occursIn needle cs

/-- Python `sub in s` on `String`s. -/
def pyIn (needle hay : String) : Bool := occursIn (chars needle) (chars hay)

/-! ### The scikit-learn default analyzer -/

/-- Word characters of the default token pattern `\b\w\w+\b` (ASCII
fragment of the Unicode word class). -/
def isWordChar (c : Char) : Bool := c.isAlphanum || c == '_'

/-- Maximal runs of word characters of length at least 2, in order.  The
accumulator holds the current run, reversed. -/
def tokenizeAux (cur : List Char) : List Char → List String
  | [] => if 2 ≤ cur.length then [String.mk cur.reverse] else []
  | c :: cs =>
    if isWordChar c then
      tokenizeAux (c :: cur) cs
    else
      (if 2 ≤ cur.length then [String.mk cur.reverse] else []) ++ tokenizeAux [] cs

/-- scikit-learn's built-in English stop-word list
(`sklearn.feature_extraction.text.ENGLISH_STOP_WORDS`). -/
def englishStopWords : List String :=
  ["a", "about", "above", "across", "after", "afterwards", "again", "against",
   "all", "almost", "alone", "along", "already", "also", "although", "always",
   "am", "among", "amongst", "amoungst", "amount", "an", "and", "another",
   "any", "anyhow", "anyone", "anything", "anyway", "anywhere", "are",
   "around", "as", "at", "back", "be", "became", "because", "become",
   "becomes", "becoming", "been", "before", "beforehand", "behind", "being",
   "below", "beside", "besides", "between", "beyond", "bill", "both",
   "bottom", "but", "by", "call", "can", "cannot", "cant", "co", "con",
   "could", "couldnt", "cry", "de", "describe", "detail", "do", "done",
   "down", "due", "during", "each", "eg", "eight", "either", "eleven",
   "else", "elsewhere", "empty", "enough", "etc", "even", "ever", "every",
   "everyone", "everything", "everywhere", "except", "few", "fifteen",
   "fifty", "fill", "find", "fire", "first", "five", "for", "former",
   "formerly", "forty", "found", "four", "from", "front", "full", "further",
   "get", "give", "go", "had", "has", "hasnt", "have", "he", "hence", "her",
   "here", "hereafter", "hereby", "herein", "hereupon", "hers", "herself",
   "him", "himself", "his", "how", "however", "hundred", "i", "ie", "if",
   "in", "inc", "indeed", "interest", "into", "is", "it", "its", "itself",
   "keep", "last", "latter", "latterly", "least", "less", "ltd", "made",
   "many", "may", "me", "meanwhile", "might", "mill", "mine", "more",
   "moreover", "most", "mostly", "move", "much", "must", "my", "myself",
   "name", "namely", "neither", "never", "nevertheless", "next", "nine",
   "no", "nobody", "none", "noone", "nor", "not", "nothing", "now",
   "nowhere", "of", "off", "often", "on", "once", "one", "only", "onto",
   "or", "other", "others", "otherwise", "our", "ours", "ourselves", "out",
   "over", "own", "part", "per", "perhaps", "please", "put", "rather", "re",
   "same", "see", "seem", "seemed", "seeming", "seems", "serious", "several",
   "she", "should", "show", "side", "since", "sincere", "six", "sixty", "so",
   "some", "somehow", "someone", "something", "sometime", "sometimes",
   "somewhere", "still", "such", "system", "take", "ten", "than", "that",
   "the", "their", "them", "themselves", "then", "thence", "there",
   "thereafter", "thereby", "therefore", "therein", "thereupon", "these",
   "they", "thick", "thin", "third", "this", "those", "though", "three",
   "through", "throughout", "thru", "thus", "to", "together", "too", "top",
   "toward", "towards", "twelve", "twenty", "two", "un", "under", "until",
   "up", "upon", "us", "very", "via", "was", "we", "well", "were", "what",
   "whatever", "when", "whence", "whenever", "where", "whereafter",
   "whereas", "whereby", "wherein", "whereupon", "wherever", "whether",
   "which", "while", "whither", "who", "whoever", "whole", "whom", "whose",
   "why", "will", "with", "within", "without", "would", "yet", "you",
   "your", "yours", "yourself", "yourselves"]

/-- Tokens the default `TfidfVectorizer` analyzer extracts from a document:
lowercase, maximal word-character runs of length ≥ 2, stop words removed. -/
def tokenize (doc : String) : List String :=
  (tokenizeAux [] ((chars doc).map Char.toLower)).filter
    (fun t => !(englishStopWords.contains t))

/-! ### Data model -/

/-- One raw posting from the job API.  Each field is `none` when the JSON
object lacks the corresponding key. -/
structure Job where
  title : Option String
  company_name : Option String
  candidate_required_location : Option String
  description : Option String
  url : Option String
deriving DecidableEq, Repr

/-- One entry of the list `semantic_match_jobs` returns (the dict built at
app.py lines 101-108). -/
structure MatchResult where
  title : String
  company : String
  location : String
  url : String
  score : ℚ
  salary : String
deriving DecidableEq, Repr

/-! ### fetch_remotive_raw (app.py lines 77-85) -/

/-- Payload of an HTTP response as far as the code inspects it: either
`res.json()` raises (`malformed`) or it yields an object whose optional
top-level `jobs` array is `parsed`. -/
inductive JsonBody where
  | malformed : JsonBody
  | parsed : Option (List Job) → JsonBody
deriving DecidableEq

/-- Outcome of `requests.get`: a raised exception (network error, timeout, …)
or a response with a status code and a body. -/
inductive HttpResult where
  | netError : HttpResult
  | resp : Nat → JsonBody → HttpResult
deriving DecidableEq

/-- Model of `fetch_remotive_raw` (lines 77-85): any exception inside the
`try` is swallowed and every failure path returns `[]`; a 200 response
returns `res.json().get("jobs", [])`. -/
def fetch_remotive_raw : HttpResult → List Job
  | .netError => []
  | .resp status body =>
    if status = 200 then
      match body with
      | .malformed => []
      | .parsed jobsField => jobsField.getD []
    else []

/-! ### parse_resume (app.py lines 60-74) -/

/-- The fixed skill vocabulary `COMMON_SKILLS` (app.py lines 15-18). -/
def COMMON_SKILLS : List String :=
  ["python", "java", "javascript", "react", "django", "fastapi",
   "machine learning", "data science", "sql", "mongodb", "node"]

/-- The dictionary `parse_resume` returns. -/
structure Resume where
  skills : List String
  experience : String
  location : String
deriving DecidableEq, Repr

/-- Text extraction loop (lines 61-65): pages whose `extract_text()` is falsy
(`none` or the empty string) are skipped, the rest are lowercased and
concatenated.  A page is modelled by the `Option String` that
`page.extract_text()` returns. -/
def extractText (pages : List (Option String)) : String :=
  pages.foldl
    (fun text p =>
      match p with
      | none => text
      | some s => if s = "" then text else text ++ pyLower s)
    ""

/-- Attempt to match the regex `(\d+)\s+years?` at the head of `cs`,
returning the captured digit group.  The three pieces are maximal because
digits, whitespace and letters are disjoint character classes, so the greedy
Python match needs no backtracking. -/
def expMatchAt (cs : List Char) : Option String :=
  let ds := cs.takeWhile (fun c => c.isDigit)
  if ds = [] then none
  else
    let rest := cs.dropWhile (fun c => c.isDigit)
    let ws := rest.takeWhile (fun c => c.isWhitespace)
    if ws = [] then none
    else
      let rest2 := rest.dropWhile (fun c => c.isWhitespace)
      if leadsWith ['y', 'e', 'a', 'r'] rest2 then some (String.mk ds) else none

/-- Leftmost match of `re.findall(r'(\d+)\s+years?', text)`: the first
position where `expMatchAt` succeeds. -/
def findExp : List Char → Option String
  | [] => none
  | c :: cs =>
    match expMatchAt (c :: cs) with
    | some d => some d
    | none => findExp cs

/-- Model of `parse_resume` (lines 60-74) applied to the extracted page
texts: substring skill detection against `COMMON_SKILLS`, `skills or
["developer"]` fallback, first regex match for experience, fixed location. -/
def parse_resume (pages : List (Option String)) : Resume :=
  let text := extractText pages
  let skills := COMMON_SKILLS.filter (fun s => pyIn s text)
  { skills := if skills = [] then ["developer"] else skills
    experience := (findExp (chars text)).getD "Not specified"
    location := "Anywhere" }

/-! ### ai_estimate_salary (app.py lines 41-57) -/

/-- The fixed reference table `SALARY_DATA` (lines 28-39), in insertion
order, which is the order of `list(SALARY_DATA.keys())` and
`list(SALARY_DATA.values())`. -/
def SALARY_DATA : List (String × Nat) :=
  [("junior software engineer", 60000),
   ("software engineer", 80000),
   ("senior software engineer", 110000),
   ("backend developer", 90000),
   ("full stack developer", 95000),
   ("machine learning engineer", 120000),
   ("data scientist", 115000),
   ("devops engineer", 105000),
   ("frontend developer", 85000),
   ("cloud architect", 130000)]

/-- TF-IDF weight of token `t` in tokenized document `d`: term count times
the (abstract, positive) idf value of `t`. -/
def w (idf : String → ℚ) (d : List String) (t : String) : ℚ :=
  (d.count t : ℚ) * idf t

/-- Euclidean inner product of the TF-IDF vectors of `d1` and `d2` over the
token axes listed in the third argument. -/
def dotW (idf : String → ℚ) (d1 d2 : List String) : List String → ℚ
  | [] => 0
  | t :: ts => w idf d1 t * w idf d2 t + dotW idf d1 d2 ts

/-- Squared cosine similarity of two tokenized documents over `vocab`, as an
exact rational.  scikit-learn's `normalize` leaves all-zero rows untouched,
so a document with zero norm has cosine similarity 0 against everything.
The code takes `argmax` of the (nonnegative) cosines; squaring is monotone
on nonnegatives, so the `argmax` of these squared values is the same. -/
def cosSq (idf : String → ℚ) (vocab d1 d2 : List String) : ℚ :=
  let n := dotW idf d1 d2 vocab
  let a := dotW idf d1 d1 vocab
  let b := dotW idf d2 d2 vocab
  if a = 0 ∨ b = 0 then 0 else n ^ 2 / (a * b)

/-- First index of the maximum, scanning with current best index `bi` and
best value `bv`; replaces only on strictly larger values, exactly like
`numpy.argmax`. -/
def argmaxAux : List ℚ → Nat → Nat → ℚ → Nat
  | [], _, bi, _ => bi
  | x :: xs, i, bi, bv =>
    if bv < x then argmaxAux xs (i + 1) i x else argmaxAux xs (i + 1) bi bv

/-- Model of `numpy.argmax` over a list of similarity values (first
maximal index). -/
def argmaxIdx : List ℚ → Nat
  | [] => 0
  | x :: xs => argmaxAux xs 1 0 x

/-- Python `int()` on a rational: truncation toward zero. -/
def pyInt (q : ℚ) : Int := q.num.tdiv (q.den : Int)

/-- The squared cosine similarities of `job_title` against each canonical
title, in table order: the corpus of `fit_transform([job_title] + titles)`
is the title followed by the ten canonical titles, and the vocabulary is the
set of tokens occurring anywhere in it. -/
def aiSims (idf : String → ℚ) (job_title : String) : List ℚ :=
  let q := tokenize job_title
  let ds := (SALARY_DATA.map Prod.fst).map tokenize
  let vocab := (q :: ds).flatten.dedup
  ds.map (fun d => cosSq idf vocab q d)

/-- Formatting of the estimated range (lines 53-57):
`f"${int(base*0.85)//1000}k – ${int(base*1.15)//1000}k"`.  The products are
computed exactly; for every entry of `SALARY_DATA` the binary64 products the
code computes truncate to the same multiple-of-1000 quotient. -/
def fmtSalary (base : Nat) : String :=
  let low := (pyInt ((base : ℚ) * (85 / 100))).toNat
  let high := (pyInt ((base : ℚ) * (115 / 100))).toNat
  "$" ++ toString (low / 1000) ++ "k – $" ++ toString (high / 1000) ++ "k"

/-- Model of `ai_estimate_salary` (lines 41-57): pick the canonical title
with the highest cosine similarity to `job_title` (first index on ties, as
`numpy.argmax`) and format a ±15 % range around its base salary. -/
def ai_estimate_salary (idf : String → ℚ) (job_title : String) : String :=
  let salaries := SALARY_DATA.map Prod.snd
  let best_match_idx := argmaxIdx (aiSims idf job_title)
  fmtSalary (salaries.getD best_match_idx 0)

/-! ### semantic_match_jobs (app.py lines 88-110) -/

/-- Failure modes of `semantic_match_jobs`; the code lets all three escape
as uncaught exceptions. -/
inductive MatchErr where
  | emptyVocabulary : MatchErr
  | zeroSamples : MatchErr
  | keyError : String → MatchErr
deriving DecidableEq, Repr

/-- Text scored for one posting (lines 90-93): missing `title` or
`description` degrade to `""` via `job.get`. -/
def jobText (j : Job) : String :=
  j.title.getD "" ++ " " ++ j.description.getD ""

/-- The corpus handed to `fit_transform` (line 96): the joined skills
followed by each posting's text. -/
def corpus (skills : List String) (jobs : List Job) : List String :=
  joinSpace skills :: jobs.map jobText

/-- One result dict (lines 101-108).  The five direct subscripts are
evaluated left to right; the first missing key raises `KeyError`.
`round(float(score), 2)` is modelled as exact rounding to centesimals
(the float-vs-rational difference is absorbed by the score oracle). -/
def buildResult (idf : String → ℚ) (j : Job) (score : ℚ) :
    Except MatchErr MatchResult :=
  match j.title with
  | none => .error (.keyError "title")
  | some t =>
    match j.company_name with
    | none => .error (.keyError "company_name")
    | some c =>
      match j.candidate_required_location with
      | none => .error (.keyError "candidate_required_location")
      | some loc =>
        match j.url with
        | none => .error (.keyError "url")
        | some u =>
          .ok { title := t, company := c, location := loc, url := u,
                score := (⌊score * 100 + 1 / 2⌋ : ℚ) / 100,
                salary := ai_estimate_salary idf t }

/-- The `for job, score in zip(jobs, scores)` loop (lines 99-108): results
accumulate in input order; the first `KeyError` aborts the whole call. -/
def buildResults (idf : String → ℚ) :
    List (Job × ℚ) → Except MatchErr (List MatchResult)
  | [] => .ok []
  | p :: ps =>
    match buildResult idf p.1 p.2 with
    | .error e => .error e
    | .ok r =>
      match buildResults idf ps with
      | .error e => .error e
      | .ok rs => .ok (r :: rs)

/-- Comparator realising `sorted(results, key=lambda x: x["score"],
reverse=True)`: `a` may precede `b` iff `b.score ≤ a.score`.  `mergeSort`
with this comparator is a stable descending sort, as Python's `sorted` is. -/
def rankKey (a b : MatchResult) : Bool := decide (b.score ≤ a.score)

/-- Model of `semantic_match_jobs` (lines 88-110).  `sim` is the similarity
oracle standing for the floating-point cosine similarities of the corpus
head against the remaining documents (its values are irrelevant to every
property proved below); `idf` is passed through to the nested
`ai_estimate_salary` calls.  The two error branches reproduce, in order,
the two scikit-learn `ValueError`s described in the header. -/
def semantic_match_jobs (sim : List String → List ℚ) (idf : String → ℚ)
    (skills : List String) (jobs : List Job) (limit : Nat) :
    Except MatchErr (List MatchResult) :=
  if (corpus skills jobs).all (fun d => (tokenize d).isEmpty) then
    .error .emptyVocabulary
  else if jobs = [] then
    .error .zeroSamples
  else
    match buildResults idf (jobs.zip (sim (corpus skills jobs))) with
    | .error e => .error e
    | .ok results => .ok ((results.mergeSort rankKey).take limit)

/-- The call `semantic_match_jobs(skills, raw_jobs)` with the declared
default `limit=30` (line 88, used at line 161). -/
def semantic_match_jobs_default (sim : List String → List ℚ)
    (idf : String → ℚ) (skills : List String) (jobs : List Job) :
    Except MatchErr (List MatchResult) :=
  semantic_match_jobs sim idf skills jobs 30

/-! ### Top-level skill handling (app.py lines 136-148, 158-161) -/

/-- Manual skills input (lines 136-138): lowercase, split on commas, strip,
drop empty entries. -/
def parse_manual_skills (raw : String) : List String :=
  (((splitOnComma (chars (pyLower raw))).map
      (fun cs => pyStrip (String.mk cs)))).filter (fun s => s ≠ "")

/-- Lines 147-148: `if not skills: skills = ["developer"]`. -/
def effective_skills (skills : List String) : List String :=
  if skills = [] then ["developer"] else skills

/-- The Find Jobs handler on the manual-input path (lines 158-161): the
fetched postings are ranked against the effective skills with the default
limit.  There is no warning branch and no early exit for empty input. -/
def find_jobs_flow (sim : List String → List ℚ) (idf : String → ℚ)
    (manual_input : String) (raw_jobs : List Job) :
    Except MatchErr (List MatchResult) :=
  semantic_match_jobs_default sim idf
    (effective_skills (parse_manual_skills manual_input)) raw_jobs

/-! ### The result filter loop of the Find Jobs handler (app.py lines 165-169) -/

/-- Model of the two `continue` guards: a result is rendered iff its score is
not below `min_score` and, when `keyword_filter` is non-empty (truthy), the
lowercased keyword occurs in the lowercased title. -/
def filter_results (results : List MatchResult) (min_score : ℚ)
    (keyword_filter : String) : List MatchResult :=
  results.filter
    (fun job =>
      if job.score < min_score then false
      else if keyword_filter ≠ "" &&
          !(pyIn (pyLower keyword_filter) (pyLower job.title)) then false
      else true)

/-! ### Concrete sample data used by witnesses and counterexamples -/

/-- A fully-populated posting. -/
def jobSE : Job :=
  { title := some "Software Engineer", company_name := some "Acme",
    candidate_required_location := some "Remote",
    description := some "react experience needed", url := some "http://x" }

/-- A posting whose texts contain no vectorizable token. -/
def jobNoTok : Job :=
  { title := some "--", company_name := some "Acme",
    candidate_required_location := some "Remote", description := some "!!",
    url := some "http://x" }

/-- A posting whose texts consist of English stop words only. -/
def jobStop : Job :=
  { title := some "and", company_name := some "Acme",
    candidate_required_location := some "Remote",
    description := some "of the", url := some "http://x" }

/-- A posting with no `url` key. -/
def jobNoUrl : Job :=
  { title := some "Python Developer", company_name := some "Acme",
    candidate_required_location := some "Remote",
    description := some "react experience needed", url := none }

/-- A posting with no `company_name` key. -/
def jobNoCompany : Job :=
  { title := some "Python Developer", company_name := none,
    candidate_required_location := some "Remote",
    description := some "react experience needed", url := some "http://x" }

/-- An all-ones idf assignment, used to instantiate the abstract weights. -/
def idfOne : String → ℚ := fun _ => 1

/-- A similarity oracle producing one score, for single-posting inputs. -/
def simOne : List String → List ℚ := fun _ => [7 / 10]

/-- The tokens of the query title `"Software Engineer"`. -/
def qSE : List String := ["software", "engineer"]

/-- The vocabulary of the salary corpus `["Software Engineer"] ++ titles`. -/
def vocSE : List String :=
  ["junior", "senior", "software", "backend", "stack", "machine", "learning",
   "data", "scientist", "devops", "engineer", "frontend", "developer",
   "cloud", "architect"]

/-- The match result the code builds from `jobSE` with raw score `7/10`,
with the score and salary fields left as the unevaluated expressions the
code produces. -/
def resRaw : MatchResult :=
  { title := "Software Engineer", company := "Acme", location := "Remote",
    url := "http://x", score := ((⌊(7 : ℚ) / 10 * 100 + 1 / 2⌋ : ℚ) / 100),
    salary := ai_estimate_salary idfOne "Software Engineer" }

/-- The same match result in evaluated form. -/
def resSE : MatchResult :=
  { title := "Software Engineer", company := "Acme", location := "Remote",
    url := "http://x", score := 7 / 10, salary := "$68k – $92k" }

/-! ### Helper lemmas on the TF-IDF model -/

theorem dotW_nil_left (idf : String → ℚ) (d : List String) :
    ∀ v : List String, dotW idf [] d v = 0
  | [] => rfl
  | t :: ts => by simp [dotW, w, dotW_nil_left idf d ts]

theorem cosSq_nil_left (idf : String → ℚ) (v d : List String) :
    cosSq idf v [] d = 0 := by
  simp [cosSq, dotW_nil_left]

theorem cosSq_of_num_zero (idf : String → ℚ) (v d1 d2 : List String)
    (h : dotW idf d1 d2 v = 0) : cosSq idf v d1 d2 = 0 := by
  by_cases hc : dotW idf d1 d1 v = 0 ∨ dotW idf d2 d2 v = 0
  · simp [cosSq, hc]
  · simp [cosSq, hc, h]

theorem cosSq_self_eq_one (idf : String → ℚ) (v d : List String)
    (h : dotW idf d d v ≠ 0) : cosSq idf v d d = 1 := by
  have hor : ¬(dotW idf d d v = 0 ∨ dotW idf d d v = 0) := by
    push_neg
    exact ⟨h, h⟩
  simp only [cosSq]
  rw [if_neg hor, pow_two]
  exact div_self (mul_ne_zero h h)

theorem argmaxAux_lt (xs : List ℚ) :
    ∀ (i bi : Nat) (bv : ℚ), bi < i → argmaxAux xs i bi bv < i + xs.length := by
  induction xs with
  | nil =>
    intro i bi bv h
    simpa [argmaxAux] using h
  | cons x xs ih =>
    intro i bi bv h
    simp only [argmaxAux]
    by_cases hlt : bv < x
    · rw [if_pos hlt]
      have := ih (i + 1) i x (by omega)
      simpa [Nat.add_assoc, Nat.add_comm, Nat.add_left_comm] using this
    · rw [if_neg hlt]
      have := ih (i + 1) bi bv (by omega)
      simp only [List.length_cons]
      omega

theorem argmaxIdx_lt (l : List ℚ) (h : l ≠ []) : argmaxIdx l < l.length := by
  match l with
  | x :: xs =>
    have := argmaxAux_lt xs 1 0 x (by omega)
    simp only [argmaxIdx, List.length_cons]
    omega

theorem argmaxAux_replicate_zero :
    ∀ (k i bi : Nat), argmaxAux (List.replicate k 0) i bi 0 = bi := by
  intro k
  induction k with
  | zero => intro i bi; rfl
  | succ n ih =>
    intro i bi
    simp only [List.replicate_succ, argmaxAux, if_neg (lt_irrefl (0 : ℚ))]
    exact ih (i + 1) bi

theorem argmax_ten_eq_one {v0 v2 v3 v4 v5 v6 v7 v8 v9 : ℚ}
    (h0 : v0 < 1) (h2 : v2 ≤ 1) (h3 : v3 ≤ 1) (h4 : v4 ≤ 1) (h5 : v5 ≤ 1)
    (h6 : v6 ≤ 1) (h7 : v7 ≤ 1) (h8 : v8 ≤ 1) (h9 : v9 ≤ 1) :
    argmaxIdx [v0, 1, v2, v3, v4, v5, v6, v7, v8, v9] = 1 := by
  simp only [argmaxIdx, argmaxAux]
  rw [if_pos h0, if_neg (not_lt.mpr h2), if_neg (not_lt.mpr h3),
    if_neg (not_lt.mpr h4), if_neg (not_lt.mpr h5), if_neg (not_lt.mpr h6),
    if_neg (not_lt.mpr h7), if_neg (not_lt.mpr h8), if_neg (not_lt.mpr h9)]

/-- A squared cosine is strictly below 1 as soon as the Cauchy-Schwarz
inequality for the pair is strict. -/
theorem cosSq_lt_one_of_sq_lt (idf : String → ℚ) (v d1 d2 : List String)
    (ha : 0 < dotW idf d1 d1 v) (hb : 0 < dotW idf d2 d2 v)
    (h : (dotW idf d1 d2 v) ^ 2 < dotW idf d1 d1 v * dotW idf d2 d2 v) :
    cosSq idf v d1 d2 < 1 := by
  simp only [cosSq]
  rw [if_neg (by push_neg; exact ⟨ne_of_gt ha, ne_of_gt hb⟩)]
  rw [div_lt_one (by positivity)]
  exact h

/-- The inner product of the `"Software Engineer"` query with itself over
the salary-corpus vocabulary. -/
theorem dotW_qSE_self (idf : String → ℚ) :
    dotW idf qSE qSE vocSE =
      idf "software" * idf "software" + idf "engineer" * idf "engineer" := by
  simp [dotW, w, qSE, vocSE]
  try ring

/-- With positive idf weights, `"software engineer"` is the unique best
match for the query `"Software Engineer"`: its cosine is exactly 1, every
other canonical title scores strictly below 1, and `numpy.argmax` picks
index 1. -/
theorem argmax_SE (idf : String → ℚ) (hpos : ∀ t, 0 < idf t) :
    argmaxIdx (aiSims idf "Software Engineer") = 1 := by
  have hs := hpos "software"
  have he := hpos "engineer"
  have hS : (0 : ℚ) <
      idf "software" * idf "software" + idf "engineer" * idf "engineer" := by
    nlinarith [mul_pos hs hs, mul_pos he he]
  have ha := dotW_qSE_self idf
  have hq : tokenize "Software Engineer" = qSE := by decide
  have hds : (SALARY_DATA.map Prod.fst).map tokenize =
      [["junior", "software", "engineer"], qSE,
       ["senior", "software", "engineer"], ["backend", "developer"],
       ["stack", "developer"], ["machine", "learning", "engineer"],
       ["data", "scientist"], ["devops", "engineer"],
       ["frontend", "developer"], ["cloud", "architect"]] := by decide
  have hvoc : (qSE ::
      [["junior", "software", "engineer"], qSE,
       ["senior", "software", "engineer"], ["backend", "developer"],
       ["stack", "developer"], ["machine", "learning", "engineer"],
       ["data", "scientist"], ["devops", "engineer"],
       ["frontend", "developer"], ["cloud", "architect"]]).flatten.dedup =
      vocSE := by decide
  have hsims : aiSims idf "Software Engineer" =
      [cosSq idf vocSE qSE ["junior", "software", "engineer"],
       cosSq idf vocSE qSE qSE,
       cosSq idf vocSE qSE ["senior", "software", "engineer"],
       cosSq idf vocSE qSE ["backend", "developer"],
       cosSq idf vocSE qSE ["stack", "developer"],
       cosSq idf vocSE qSE ["machine", "learning", "engineer"],
       cosSq idf vocSE qSE ["data", "scientist"],
       cosSq idf vocSE qSE ["devops", "engineer"],
       cosSq idf vocSE qSE ["frontend", "developer"],
       cosSq idf vocSE qSE ["cloud", "architect"]] := by
    simp only [aiSims]
    rw [hq, hds, hvoc]
    simp only [List.map_cons, List.map_nil]
  have h1 : cosSq idf vocSE qSE qSE = 1 :=
    cosSq_self_eq_one idf vocSE qSE (by rw [ha]; exact ne_of_gt hS)
  have hjun : cosSq idf vocSE qSE ["junior", "software", "engineer"] < 1 := by
    have hj := hpos "junior"
    have hn0 : dotW idf qSE ["junior", "software", "engineer"] vocSE =
        idf "software" * idf "software" + idf "engineer" * idf "engineer" := by
      simp [dotW, w, qSE, vocSE]
      try ring
    have hb0 : dotW idf ["junior", "software", "engineer"]
        ["junior", "software", "engineer"] vocSE =
        idf "junior" * idf "junior" +
          (idf "software" * idf "software" + idf "engineer" * idf "engineer") := by
      simp [dotW, w, vocSE]
      try ring
    refine cosSq_lt_one_of_sq_lt idf vocSE _ _ (by rw [ha]; exact hS) ?_ ?_
    · rw [hb0]
      nlinarith [mul_pos hj hj]
    · rw [ha, hn0, hb0]
      nlinarith [mul_pos hj hj, hS]
  have hsen : cosSq idf vocSE qSE ["senior", "software", "engineer"] < 1 := by
    have hj := hpos "senior"
    have hn0 : dotW idf qSE ["senior", "software", "engineer"] vocSE =
        idf "software" * idf "software" + idf "engineer" * idf "engineer" := by
      simp [dotW, w, qSE, vocSE]
      try ring
    have hb0 : dotW idf ["senior", "software", "engineer"]
        ["senior", "software", "engineer"] vocSE =
        idf "senior" * idf "senior" +
          (idf "software" * idf "software" + idf "engineer" * idf "engineer") := by
      simp [dotW, w, vocSE]
      try ring
    refine cosSq_lt_one_of_sq_lt idf vocSE _ _ (by rw [ha]; exact hS) ?_ ?_
    · rw [hb0]
      nlinarith [mul_pos hj hj]
    · rw [ha, hn0, hb0]
      nlinarith [mul_pos hj hj, hS]
  have hml : cosSq idf vocSE qSE ["machine", "learning", "engineer"] < 1 := by
    have hm := hpos "machine"
    have hl := hpos "learning"
    have hn0 : dotW idf qSE ["machine", "learning", "engineer"] vocSE =
        idf "engineer" * idf "engineer" := by
      simp [dotW, w, qSE, vocSE]
      try ring
    have hb0 : dotW idf ["machine", "learning", "engineer"]
        ["machine", "learning", "engineer"] vocSE =
        idf "machine" * idf "machine" +
          (idf "learning" * idf "learning" + idf "engineer" * idf "engineer") := by
      simp [dotW, w, vocSE]
      try ring
    refine cosSq_lt_one_of_sq_lt idf vocSE _ _ (by rw [ha]; exact hS) ?_ ?_
    · rw [hb0]
      nlinarith [mul_pos hm hm, mul_pos hl hl, mul_pos he he]
    · rw [ha, hn0, hb0]
      nlinarith [mul_pos (mul_pos hs hs) (mul_pos hm hm),
        mul_pos (mul_pos hs hs) (mul_pos hl hl),
        mul_pos (mul_pos hs hs) (mul_pos he he),
        mul_pos (mul_pos he he) (mul_pos hm hm),
        mul_pos (mul_pos he he) (mul_pos hl hl)]
  have hdev : cosSq idf vocSE qSE ["devops", "engineer"] < 1 := by
    have hd := hpos "devops"
    have hn0 : dotW idf qSE ["devops", "engineer"] vocSE =
        idf "engineer" * idf "engineer" := by
      simp [dotW, w, qSE, vocSE]
      try ring
    have hb0 : dotW idf ["devops", "engineer"] ["devops", "engineer"] vocSE =
        idf "devops" * idf "devops" + idf "engineer" * idf "engineer" := by
      simp [dotW, w, vocSE]
      try ring
    refine cosSq_lt_one_of_sq_lt idf vocSE _ _ (by rw [ha]; exact hS) ?_ ?_
    · rw [hb0]
      nlinarith [mul_pos hd hd, mul_pos he he]
    · rw [ha, hn0, hb0]
      nlinarith [mul_pos (mul_pos hs hs) (mul_pos hd hd),
        mul_pos (mul_pos hs hs) (mul_pos he he),
        mul_pos (mul_pos he he) (mul_pos hd hd)]
  have hz1 : cosSq idf vocSE qSE ["backend", "developer"] = 0 :=
    cosSq_of_num_zero idf vocSE qSE _ (by simp [dotW, w, qSE, vocSE])
  have hz2 : cosSq idf vocSE qSE ["stack", "developer"] = 0 :=
    cosSq_of_num_zero idf vocSE qSE _ (by simp [dotW, w, qSE, vocSE])
  have hz3 : cosSq idf vocSE qSE ["data", "scientist"] = 0 :=
    cosSq_of_num_zero idf vocSE qSE _ (by simp [dotW, w, qSE, vocSE])
  have hz4 : cosSq idf vocSE qSE ["frontend", "developer"] = 0 :=
    cosSq_of_num_zero idf vocSE qSE _ (by simp [dotW, w, qSE, vocSE])
  have hz5 : cosSq idf vocSE qSE ["cloud", "architect"] = 0 :=
    cosSq_of_num_zero idf vocSE qSE _ (by simp [dotW, w, qSE, vocSE])
  rw [hsims, h1, hz1, hz2, hz3, hz4, hz5]
  exact argmax_ten_eq_one hjun (le_of_lt hsen) (by norm_num) (by norm_num)
    (le_of_lt hml) (by norm_num) (le_of_lt hdev) (by norm_num) (by norm_num)

/-- Evaluation of the range formatting at base salary 80000. -/
theorem fmtSalary_80000 : fmtSalary 80000 = "$68k – $92k" := by
  have h85 : ((80000 : Nat) : ℚ) * (85 / 100) = 68000 := by norm_num
  have h115 : ((80000 : Nat) : ℚ) * (115 / 100) = 92000 := by norm_num
  simp only [fmtSalary, h85, h115]
  norm_num [pyInt]
  decide

/-- Evaluation of the range formatting at base salary 60000. -/
theorem fmtSalary_60000 : fmtSalary 60000 = "$51k – $69k" := by
  have h85 : ((60000 : Nat) : ℚ) * (85 / 100) = 51000 := by norm_num
  have h115 : ((60000 : Nat) : ℚ) * (115 / 100) = 69000 := by norm_num
  simp only [fmtSalary, h85, h115]
  norm_num [pyInt]
  decide

/-- The salary heuristic at the exact canonical title, for any positive
idf assignment. -/
theorem ai_salary_SE (idf : String → ℚ) (hpos : ∀ t, 0 < idf t) :
    ai_estimate_salary idf "Software Engineer" = "$68k – $92k" := by
  simp only [ai_estimate_salary]
  rw [argmax_SE idf hpos]
  rw [show (SALARY_DATA.map Prod.snd).getD 1 0 = 80000 from rfl]
  exact fmtSalary_80000

/-- An empty job title produces the zero query vector, hence all-zero
similarities. -/
theorem aiSims_empty (idf : String → ℚ) :
    aiSims idf "" = List.replicate 10 0 := by
  have hq : tokenize "" = ([] : List String) := rfl
  simp only [aiSims, hq]
  rw [List.map_congr_left (fun d _ => cosSq_nil_left idf _ d)]
  rw [List.map_const']
  rw [show ((SALARY_DATA.map Prod.fst).map tokenize).length = 10 by decide]

/-- On the empty title, `argmax` of the all-zero similarities is 0, i.e.
the first table entry. -/
theorem argmax_empty (idf : String → ℚ) :
    argmaxIdx (aiSims idf "") = 0 := by
  rw [aiSims_empty]
  rw [show List.replicate 10 (0 : ℚ) = 0 :: List.replicate 9 0 from rfl]
  exact argmaxAux_replicate_zero 9 1 0

/-- The salary heuristic on the empty title, for any idf assignment. -/
theorem ai_salary_empty (idf : String → ℚ) :
    ai_estimate_salary idf "" = "$51k – $69k" := by
  simp only [ai_estimate_salary]
  rw [argmax_empty idf]
  rw [show (SALARY_DATA.map Prod.snd).getD 0 0 = 60000 from rfl]
  exact fmtSalary_60000

/-- Evaluation of the rounded score `round(float(0.7), 2)`. -/
theorem resRaw_score : ((⌊(7 : ℚ) / 10 * 100 + 1 / 2⌋ : ℚ) / 100) = 7 / 10 := by
  have h2 : (⌊(7 : ℚ) / 10 * 100 + 1 / 2⌋ : ℤ) = 70 := by
    rw [Int.floor_eq_iff]
    constructor <;> norm_num
  rw [h2]
  norm_num

/-- Positivity of the all-ones idf assignment. -/
theorem idfOne_pos : ∀ t, (0 : ℚ) < idfOne t := by
  intro t
  simp [idfOne]

/-- The raw match result built from `jobSE` evaluates to `resSE`. -/
theorem resRaw_eq_resSE : resRaw = resSE := by
  simp only [resRaw, resSE, MatchResult.mk.injEq]
  exact ⟨trivial, trivial, trivial, trivial, resRaw_score,
    ai_salary_SE idfOne idfOne_pos⟩

/-! ### Helper lemmas on the ranking pipeline -/

theorem rankKey_trans :
    ∀ a b c : MatchResult, rankKey a b → rankKey b c → rankKey a c := by
  intro a b c hab hbc
  simp only [rankKey, decide_eq_true_eq] at hab hbc ⊢
  exact le_trans hbc hab

theorem rankKey_total : ∀ a b : MatchResult, rankKey a b || rankKey b a := by
  intro a b
  simp only [rankKey, Bool.or_eq_true, decide_eq_true_eq]
  exact le_total b.score a.score

theorem buildResults_ok_length (idf : String → ℚ) :
    ∀ (l : List (Job × ℚ)) (rs : List MatchResult),
      buildResults idf l = Except.ok rs → rs.length = l.length := by
  intro l
  induction l with
  | nil =>
    intro rs h
    simp only [buildResults] at h
    cases h
    rfl
  | cons a as ih =>
    intro rs h
    simp only [buildResults] at h
    cases hb : buildResult idf a.1 a.2 with
    | error e =>
      rw [hb] at h
      cases h
    | ok r =>
      rw [hb] at h
      cases hbs : buildResults idf as with
      | error e =>
        rw [hbs] at h
        cases h
      | ok rs0 =>
        rw [hbs] at h
        cases h
        simpa using ih rs0 hbs

theorem buildResults_ok_forall (idf : String → ℚ) :
    ∀ (l : List (Job × ℚ)) (rs : List MatchResult),
      buildResults idf l = Except.ok rs →
      ∀ p ∈ l, ∃ r, buildResult idf p.1 p.2 = Except.ok r := by
  intro l
  induction l with
  | nil =>
    intro rs h p hp
    simp at hp
  | cons a as ih =>
    intro rs h p hp
    simp only [buildResults] at h
    cases hb : buildResult idf a.1 a.2 with
    | error e =>
      rw [hb] at h
      cases h
    | ok r =>
      rw [hb] at h
      cases hbs : buildResults idf as with
      | error e =>
        rw [hbs] at h
        cases h
      | ok rs0 =>
        rcases List.mem_cons.mp hp with hpa | hpas
        · exact ⟨r, hpa ▸ hb⟩
        · exact ih rs0 hbs p hpas

theorem buildResult_ok_fields (idf : String → ℚ) (j : Job) (s : ℚ)
    (r : MatchResult) (h : buildResult idf j s = Except.ok r) :
    j.title = some r.title ∧ j.company_name = some r.company ∧
    j.candidate_required_location = some r.location ∧ j.url = some r.url := by
  obtain ⟨t, c, l, d, u⟩ := j
  cases t <;> cases c <;> cases l <;> cases u <;>
    simp only [buildResult] at h <;> cases h <;> simp

/-! ### Theorems settling the claims -/

/-- C8: the postings fetch returns the empty list on any failure — network
error or timeout (`netError`), non-200 status, or unparseable body — and
never propagates an error (it is a total function into `List Job`); on a
200 response it returns the payload's top-level `jobs` array, or `[]` if
the key is absent. -/
theorem fetch_failures_yield_empty (status : Nat) (body : JsonBody)
    (jobs : List Job) :
    fetch_remotive_raw HttpResult.netError = [] ∧
    (status ≠ 200 → fetch_remotive_raw (HttpResult.resp status body) = []) ∧
    fetch_remotive_raw (HttpResult.resp 200 JsonBody.malformed) = [] ∧
    fetch_remotive_raw (HttpResult.resp 200 (JsonBody.parsed none)) = [] ∧
    fetch_remotive_raw (HttpResult.resp 200 (JsonBody.parsed (some jobs))) = jobs := by
  refine ⟨rfl, ?_, rfl, rfl, rfl⟩
  intro h
  simp [fetch_remotive_raw, h]

/-- Witness for C8 at a concrete non-200 response. -/
theorem fetch_failures_yield_empty_witness :
    fetch_remotive_raw (HttpResult.resp 503 JsonBody.malformed) = [] :=
  (fetch_failures_yield_empty 503 JsonBody.malformed []).2.1 (by decide)

/-- C9: `parse_resume` falls back to the default skill set `["developer"]`
whenever no skill of the fixed vocabulary occurs in the extracted text — in
particular when there is no extractable text at all — and the experience
field is the first match of the regular expression `(\d+)\s+years?`,
degrading to `"Not specified"` when there is no match. -/
theorem parse_resume_defaults (pages : List (Option String)) :
    ((∀ s ∈ COMMON_SKILLS, pyIn s (extractText pages) = false) →
        (parse_resume pages).skills = ["developer"]) ∧
    (findExp (chars (extractText pages)) = none →
        (parse_resume pages).experience = "Not specified") ∧
    (∀ d, findExp (chars (extractText pages)) = some d →
        (parse_resume pages).experience = d) ∧
    parse_resume [none, some ""] =
      { skills := ["developer"], experience := "Not specified",
        location := "Anywhere" } := by
  refine ⟨?_, ?_, ?_, by decide⟩
  · intro h
    have hnil : COMMON_SKILLS.filter (fun s => pyIn s (extractText pages)) = [] :=
      List.filter_eq_nil_iff.mpr (by simpa using h)
    simp [parse_resume, hnil]
  · intro h
    simp [parse_resume, h]
  · intro d h
    simp [parse_resume, h]

/-- Witness for C9 on concrete page texts: no vocabulary skill occurs, and
the first regex match is picked up. -/
theorem parse_resume_defaults_witness :
    (parse_resume [some "Welding and plumbing work"]).skills = ["developer"] ∧
    (parse_resume [some "About 7 years of welding"]).experience = "7" :=
  ⟨(parse_resume_defaults [some "Welding and plumbing work"]).1 (by decide),
   (parse_resume_defaults [some "About 7 years of welding"]).2.2.1 "7" (by decide)⟩

/-- C6: the result filter keeps exactly the results whose score is at least
`min_score` and, when the keyword is non-empty, whose title contains it
case-insensitively; survivors keep their relative order (the output is a
sublist of the input, no re-sort). -/
theorem filter_results_spec (results : List MatchResult) (min_score : ℚ)
    (kw : String) :
    (filter_results results min_score kw).Sublist results ∧
    (∀ r ∈ filter_results results min_score kw,
        min_score ≤ r.score ∧
          (kw = "" ∨ pyIn (pyLower kw) (pyLower r.title) = true)) ∧
    (∀ r ∈ results, min_score ≤ r.score →
        (kw = "" ∨ pyIn (pyLower kw) (pyLower r.title) = true) →
        r ∈ filter_results results min_score kw) := by
  have hp : ∀ r : MatchResult,
      ((if r.score < min_score then false
        else if kw ≠ "" && !(pyIn (pyLower kw) (pyLower r.title)) then false
        else true) = true) ↔
      (min_score ≤ r.score ∧
        (kw = "" ∨ pyIn (pyLower kw) (pyLower r.title) = true)) := by
    intro r
    by_cases h1 : r.score < min_score
    · simp only [if_pos h1]
      constructor
      · intro hcontra
        simp at hcontra
      · rintro ⟨hge, -⟩
        exact absurd h1 (not_lt.mpr hge)
    · by_cases hk : kw = ""
      · simp [if_neg h1, hk, not_lt.mp h1]
      · by_cases hc : pyIn (pyLower kw) (pyLower r.title) = true
        · simp [if_neg h1, hk, hc, not_lt.mp h1]
        · simp [if_neg h1, hk, hc, not_lt.mp h1]
  refine ⟨List.filter_sublist _, ?_, ?_⟩
  · intro r hr
    have hmem := (List.mem_filter.mp hr).2
    exact (hp r).mp hmem
  · intro r hr h1 h2
    exact List.mem_filter.mpr ⟨hr, (hp r).mpr ⟨h1, h2⟩⟩

/-- Witness for C6 at a concrete result list: a result at the threshold with
a matching title survives the filter. -/
theorem filter_results_spec_witness :
    { title := "Top Engineer", company := "A", location := "B", url := "u",
      score := (1 : ℚ) / 2, salary := "s" } ∈
      filter_results
        [{ title := "Top Engineer", company := "A", location := "B",
           url := "u", score := (1 : ℚ) / 2, salary := "s" }]
        ((1 : ℚ) / 2) "engineer" :=
  (filter_results_spec _ ((1 : ℚ) / 2) "engineer").2.2 _ (by simp)
    (by norm_num) (Or.inr (by decide))

/-- C10: `semantic_match_jobs` is not total: when every document of the
corpus tokenizes to nothing — texts made of punctuation only, or of English
stop words only — the vectorizer raises (empty vocabulary), and the
operation fails instead of returning a sequence, whatever the similarity
values and idf weights are. -/
theorem match_jobs_not_total (sim : List String → List ℚ)
    (idf : String → ℚ) (limit : Nat) :
    semantic_match_jobs sim idf [""] [jobNoTok] limit =
      Except.error MatchErr.emptyVocabulary ∧
    semantic_match_jobs sim idf ["the"] [jobStop] limit =
      Except.error MatchErr.emptyVocabulary := by
  exact ⟨rfl, rfl⟩

/-- C4 (code evaluated at the failing input): with the default skill set and
an empty postings list — exactly the state after a failed fetch — the
ranking raises instead of returning `[]`: the skills text vectorizes, so the
pairwise-similarity validation rejects the empty sample matrix. -/
theorem rank_empty_postings_raises (sim : List String → List ℚ)
    (idf : String → ℚ) (limit : Nat) :
    semantic_match_jobs sim idf ["developer"] [] limit =
      Except.error MatchErr.zeroSamples := by
  exact rfl

/-- C5 counterexample: with no skills provided (empty manual input), the
code does not warn and does not skip the search — it silently substitutes
`["developer"]` and the search runs, returning a ranked posting. -/
theorem no_skills_counterexample :
    effective_skills (parse_manual_skills "") = ["developer"] ∧
    find_jobs_flow simOne idfOne "" [jobSE] = Except.ok [resSE] := by
  refine ⟨rfl, ?_⟩
  have h1 : find_jobs_flow simOne idfOne "" [jobSE] =
      Except.ok (([resRaw].mergeSort rankKey).take 30) := rfl
  rw [h1, List.mergeSort_singleton,
    show List.take 30 [resRaw] = [resRaw] from rfl, resRaw_eq_resSE]

/-- C5 amended: when the user provides no skills, the top-level flow
substitutes the default skill set `["developer"]` and performs the search
with it; no warning is surfaced and the search is not skipped. -/
theorem no_skills_fallback (input : String)
    (h : parse_manual_skills input = []) :
    effective_skills (parse_manual_skills input) = ["developer"] ∧
    (∀ sim idf jobs, find_jobs_flow sim idf input jobs =
        semantic_match_jobs sim idf ["developer"] jobs 30) := by
  constructor
  · simp [effective_skills, h]
  · intro sim idf jobs
    simp [find_jobs_flow, semantic_match_jobs_default, effective_skills, h]

/-- Witness for the amended C5 at whitespace-and-commas input. -/
theorem no_skills_fallback_witness :
    effective_skills (parse_manual_skills " , ,") = ["developer"] :=
  (no_skills_fallback " , ," (by decide)).1

/-- C1 counterexample: `semantic_match_jobs` does not always return a
sequence: a posting without a `url` key makes it raise `KeyError` (the
similarity oracle returns one score, as the library does for one posting). -/
theorem rank_missing_url_raises :
    semantic_match_jobs simOne idfOne ["python"] [jobNoUrl] 30 =
      Except.error (MatchErr.keyError "url") := by
  exact rfl

/-- C3 counterexample: a posting lacking `company_name` (all other fields
present) makes the ranking raise `KeyError` instead of degrading the field
to a placeholder string. -/
theorem rank_missing_company_raises :
    semantic_match_jobs simOne idfOne ["python"] [jobNoCompany] 30 =
      Except.error (MatchErr.keyError "company_name") := by
  exact rfl

/-- C3 amended: only missing `title` or `description` degrade (to the empty
string, in the text used for scoring); the result construction reads
`title`, `company_name`, `candidate_required_location` and `url`
unconditionally, so a posting missing any of them makes the ranking fail
with a `KeyError` for the first missing key — no placeholder string is ever
substituted, and a successful run carries the postings' actual field
values. -/
theorem rank_requires_result_fields (idf : String → ℚ) (j : Job) (s : ℚ) :
    jobText j = j.title.getD "" ++ " " ++ j.description.getD "" ∧
    (j.title = none →
        buildResult idf j s = Except.error (MatchErr.keyError "title")) ∧
    (j.title ≠ none → j.company_name = none →
        buildResult idf j s = Except.error (MatchErr.keyError "company_name")) ∧
    (j.title ≠ none → j.company_name ≠ none →
        j.candidate_required_location = none →
        buildResult idf j s =
          Except.error (MatchErr.keyError "candidate_required_location")) ∧
    (j.title ≠ none → j.company_name ≠ none →
        j.candidate_required_location ≠ none → j.url = none →
        buildResult idf j s = Except.error (MatchErr.keyError "url")) ∧
    (∀ sim skills jobs limit out,
        semantic_match_jobs sim idf skills jobs limit = Except.ok out →
        ∀ p ∈ jobs.zip (sim (corpus skills jobs)),
          p.1.title ≠ none ∧ p.1.company_name ≠ none ∧
          p.1.candidate_required_location ≠ none ∧ p.1.url ≠ none) := by
  refine ⟨rfl, ?_, ?_, ?_, ?_, ?_⟩
  · intro ht
    obtain ⟨t, c, l, d, u⟩ := j
    cases ht
    rfl
  · intro ht hc
    obtain ⟨t, c, l, d, u⟩ := j
    obtain ⟨tv, rfl⟩ := Option.ne_none_iff_exists'.mp ht
    cases hc
    rfl
  · intro ht hc hl
    obtain ⟨t, c, l, d, u⟩ := j
    obtain ⟨tv, rfl⟩ := Option.ne_none_iff_exists'.mp ht
    obtain ⟨cv, rfl⟩ := Option.ne_none_iff_exists'.mp hc
    cases hl
    rfl
  · intro ht hc hl hu
    obtain ⟨t, c, l, d, u⟩ := j
    obtain ⟨tv, rfl⟩ := Option.ne_none_iff_exists'.mp ht
    obtain ⟨cv, rfl⟩ := Option.ne_none_iff_exists'.mp hc
    obtain ⟨lv, rfl⟩ := Option.ne_none_iff_exists'.mp hl
    cases hu
    rfl
  · intro sim skills jobs limit out hok p hp
    simp only [semantic_match_jobs] at hok
    by_cases h1 : (corpus skills jobs).all (fun d => (tokenize d).isEmpty)
    · rw [if_pos h1] at hok
      cases hok
    rw [if_neg h1] at hok
    by_cases h2 : jobs = []
    · rw [if_pos h2] at hok
      cases hok
    rw [if_neg h2] at hok
    cases hbr : buildResults idf (jobs.zip (sim (corpus skills jobs))) with
    | error e =>
      rw [hbr] at hok
      cases hok
    | ok results =>
      obtain ⟨r, hr⟩ := buildResults_ok_forall idf _ _ hbr p hp
      have hf := buildResult_ok_fields idf p.1 p.2 r hr
      refine ⟨?_, ?_, ?_, ?_⟩ <;> simp [hf.1, hf.2.1, hf.2.2.1, hf.2.2.2]

/-- Witness for the amended C3: the posting without `company_name` raises
exactly the `company_name` key error from the result-construction step. -/
theorem rank_requires_result_fields_witness :
    buildResult idfOne jobNoCompany (7 / 10) =
      Except.error (MatchErr.keyError "company_name") :=
  (rank_requires_result_fields idfOne jobNoCompany (7 / 10)).2.2.1
    (by decide) (by decide)

/-- C2: `ai_estimate_salary` picks the canonical title most similar to the
query and returns the `[0.85 × base, 1.15 × base]` range of its base
salary, formatted by `fmtSalary` as floor-divided thousands with a "k"
suffix; on the exact canonical title "Software Engineer" the best match is
table entry 1 (base 80000) and the result is exactly "$68k – $92k".  The
idf weights are abstract: the instance holds for every positive
assignment, as the true logarithmic weights are. -/
theorem estimate_salary_range (idf : String → ℚ) (hpos : ∀ t, 0 < idf t) :
    ai_estimate_salary idf "Software Engineer" = "$68k – $92k" ∧
    (SALARY_DATA.map Prod.snd).getD
      (argmaxIdx (aiSims idf "Software Engineer")) 0 = 80000 ∧
    (∀ job_title : String, ∃ base ∈ SALARY_DATA.map Prod.snd,
        ai_estimate_salary idf job_title = fmtSalary base) := by
  refine ⟨ai_salary_SE idf hpos, ?_, ?_⟩
  · rw [argmax_SE idf hpos]
    rfl
  · intro jt
    have hlen : (aiSims idf jt).length = 10 := by
      simp [aiSims, SALARY_DATA]
    have hne : aiSims idf jt ≠ [] := by
      intro hnil
      rw [hnil] at hlen
      simp at hlen
    have hidx : argmaxIdx (aiSims idf jt) < 10 := hlen ▸ argmaxIdx_lt _ hne
    have hlen2 : argmaxIdx (aiSims idf jt) < (SALARY_DATA.map Prod.snd).length := by
      simpa [SALARY_DATA] using hidx
    refine ⟨(SALARY_DATA.map Prod.snd).getD (argmaxIdx (aiSims idf jt)) 0,
      ?_, rfl⟩
    rw [List.getD_eq_getElem _ _ hlen2]
    exact List.getElem_mem hlen2

/-- Witness for C2 at the all-ones idf assignment. -/
theorem estimate_salary_range_witness :
    ai_estimate_salary idfOne "Software Engineer" = "$68k – $92k" :=
  (estimate_salary_range idfOne idfOne_pos).1

/-- C7: on the empty job title the salary estimator does not fail (the
model is a total function): the query vector is zero, every cosine
similarity is zero, and `argmax` falls back to the first canonical entry —
"junior software engineer", which is also the lowest-salary entry — so a
well-formed range string is returned. -/
theorem estimate_salary_empty_title (idf : String → ℚ) :
    ai_estimate_salary idf "" = "$51k – $69k" ∧
    aiSims idf "" = List.replicate 10 0 ∧
    SALARY_DATA.getD (argmaxIdx (aiSims idf "")) ("", 0) =
      ("junior software engineer", 60000) ∧
    (∀ p ∈ SALARY_DATA, 60000 ≤ p.2) := by
  refine ⟨ai_salary_empty idf, aiSims_empty idf, ?_, by decide⟩
  rw [argmax_empty idf]
  rfl

/-- Witness for C7 at the all-ones idf assignment, with the lowest-salary
check instantiated at the chosen entry. -/
theorem estimate_salary_empty_title_witness :
    ai_estimate_salary idfOne "" = "$51k – $69k" ∧
    60000 ≤ ("junior software engineer", 60000).2 :=
  ⟨(estimate_salary_empty_title idfOne).1,
   (estimate_salary_empty_title idfOne).2.2.2 _ (by decide)⟩

/-- C1 amended: whenever `semantic_match_jobs` returns normally, the
returned sequence is the `limit`-prefix of a stable descending sort of the
match results built in input order from the postings: the full sorted list
is a permutation of the built results, scores are non-increasing along it,
results with equal score keep their input order (the filter at every score
level is unchanged), and the output length is at most `min limit |jobs|`;
the declared default limit is 30.  (As universally stated the claim is
false: the operation can raise instead of returning, see the
counterexample.) -/
theorem rank_ok_stable_sorted_truncation (sim : List String → List ℚ)
    (idf : String → ℚ) (skills : List String) (jobs : List Job)
    (limit : Nat) (out : List MatchResult)
    (hok : semantic_match_jobs sim idf skills jobs limit = Except.ok out) :
    ∃ results full : List MatchResult,
      buildResults idf (jobs.zip (sim (corpus skills jobs))) =
        Except.ok results ∧
      results.length = min jobs.length (sim (corpus skills jobs)).length ∧
      full.Perm results ∧
      out = full.take limit ∧
      out.length ≤ min limit jobs.length ∧
      full.Pairwise (fun a b => b.score ≤ a.score) ∧
      out.Pairwise (fun a b => b.score ≤ a.score) ∧
      (∀ q : ℚ, full.filter (fun r => decide (r.score = q)) =
          results.filter (fun r => decide (r.score = q))) ∧
      semantic_match_jobs_default sim idf skills jobs =
        semantic_match_jobs sim idf skills jobs 30 := by
  simp only [semantic_match_jobs] at hok
  by_cases h1 : (corpus skills jobs).all (fun d => (tokenize d).isEmpty)
  · rw [if_pos h1] at hok
    cases hok
  rw [if_neg h1] at hok
  by_cases h2 : jobs = []
  · rw [if_pos h2] at hok
    cases hok
  rw [if_neg h2] at hok
  cases hbr : buildResults idf (jobs.zip (sim (corpus skills jobs))) with
  | error e =>
    rw [hbr] at hok
    cases hok
  | ok results =>
    rw [hbr] at hok
    have hout : out = (results.mergeSort rankKey).take limit := by
      cases hok
      rfl
    have hrlen : results.length =
        min jobs.length (sim (corpus skills jobs)).length := by
      have := buildResults_ok_length idf _ _ hbr
      rw [this, List.length_zip]
    have hsorted : (results.mergeSort rankKey).Pairwise
        (fun a b => b.score ≤ a.score) := by
      have hs := List.sorted_mergeSort rankKey_trans rankKey_total results
      exact hs.imp (fun h => by
        simpa [rankKey, decide_eq_true_eq] using h)
    refine ⟨results, results.mergeSort rankKey, rfl, hrlen,
      List.mergeSort_perm results rankKey, hout, ?_, hsorted,
      hout ▸ List.Pairwise.sublist (List.take_sublist limit _) hsorted,
      ?_, rfl⟩
    · rw [hout, List.length_take, List.length_mergeSort, hrlen]
      omega
    · intro q
      have hcsub : List.Sublist
          (results.filter (fun r => decide (r.score = q))) results :=
        List.filter_sublist results
      have hcpair : (results.filter (fun r => decide (r.score = q))).Pairwise
          (fun a b => rankKey a b) := by
        apply List.pairwise_of_forall_mem_list
        intro a ha b hb
        have ha2 := of_decide_eq_true (List.mem_filter.mp ha).2
        have hb2 := of_decide_eq_true (List.mem_filter.mp hb).2
        simp [rankKey, ha2, hb2]
      have hsub2 : List.Sublist (results.filter (fun r => decide (r.score = q)))
          (results.mergeSort rankKey) :=
        List.sublist_mergeSort rankKey_trans rankKey_total hcpair hcsub
      have hidem : (results.filter (fun r => decide (r.score = q))).filter
          (fun r => decide (r.score = q)) =
          results.filter (fun r => decide (r.score = q)) :=
        List.filter_eq_self.mpr (fun a ha => (List.mem_filter.mp ha).2)
      have hsub3 : List.Sublist (results.filter (fun r => decide (r.score = q)))
          ((results.mergeSort rankKey).filter (fun r => decide (r.score = q))) := by
        have := hsub2.filter (fun r => decide (r.score = q))
        rwa [hidem] at this
      have hperm : List.Perm
          ((results.mergeSort rankKey).filter (fun r => decide (r.score = q)))
          (results.filter (fun r => decide (r.score = q))) :=
        (List.mergeSort_perm results rankKey).filter _
      exact (hsub3.eq_of_length hperm.length_eq.symm).symm

/-- Witness for the amended C1 at a concrete successful run. -/
theorem rank_ok_stable_sorted_truncation_witness :
    ∃ results full : List MatchResult,
      buildResults idfOne ([jobSE].zip (simOne (corpus ["developer"] [jobSE]))) =
        Except.ok results ∧
      results.length =
        min [jobSE].length (simOne (corpus ["developer"] [jobSE])).length ∧
      full.Perm results ∧
      ([resRaw].mergeSort rankKey).take 30 = full.take 30 ∧
      (([resRaw].mergeSort rankKey).take 30).length ≤ min 30 [jobSE].length ∧
      full.Pairwise (fun a b => b.score ≤ a.score) ∧
      (([resRaw].mergeSort rankKey).take 30).Pairwise
        (fun a b => b.score ≤ a.score) ∧
      (∀ q : ℚ, full.filter (fun r => decide (r.score = q)) =
          results.filter (fun r => decide (r.score = q))) ∧
      semantic_match_jobs_default simOne idfOne ["developer"] [jobSE] =
        semantic_match_jobs simOne idfOne ["developer"] [jobSE] 30 :=
  rank_ok_stable_sorted_truncation simOne idfOne ["developer"] [jobSE] 30
    (([resRaw].mergeSort rankKey).take 30) rfl

end JobFind
